import Mathlib

/-!
Shallow embedding of the Kakurasu rules engine (`src/index.js`).

The JavaScript source is translated construct by construct:

* `STATUS_CLEAR/ACTIVE/FLAGGED` becomes the inductive type `KStatus`.
* A `KakurasuField`'s JSON state `{status, readOnly?, solution?}` becomes a
  structure; the optional JS properties (absent = falsy) become `Bool` fields.
* The game's `state.fields` object is an association list from `(row, column)`
  keys to fields, kept in JS object-key insertion order (the order matters for
  `_loadFiledMetaInformationsAmountRowsAndColumns`, which folds over the keys).
* `state.currentMoveIndex` is `Option Int`: `none` is JS `null`, `some i` a
  numeric cursor (snapshots may supply any integer, so `Int` rather than `Nat`).
* The derived `this.meta` data (`amountRows`, `amountColumns`, the row/column
  constraint caches) is stored in the `Kakurasu` structure and computed by the
  constructor `mkKakurasu`, exactly as the JS constructor does; gameplay
  operations never touch it, mirroring the source.
* Where the JS code would throw a `TypeError` (accessing a field at a key that
  does not exist), the embedding returns the unchanged state or a default
  field; every theorem below stays inside the domain where the key exists.
-/

inductive KStatus where
  | clear
  | active
  | flagged
deriving DecidableEq, Repr

structure KakurasuField where
  status : KStatus
  readOnly : Bool := false
  solution : Bool := false
deriving DecidableEq, Repr

/-- A move object `{row, column, previousStatus, nextStatus}`. -/
structure KMove where
  row : Nat
  column : Nat
  previousStatus : KStatus
  nextStatus : KStatus
deriving DecidableEq, Repr

/-- The game object: `this.state` (fields, moveHistory, currentMoveIndex)
together with the derived `this.meta` information computed at load time. -/
structure Kakurasu where
  fields : List ((Nat × Nat) × KakurasuField)
  moveHistory : List KMove
  currentMoveIndex : Option Int
  amountRows : Nat
  amountColumns : Nat
  rowConstraints : List Nat
  columnConstraints : List Nat
deriving DecidableEq, Repr

/-- `KakurasuField.prototype._reset`: set status to Clear unless read-only. -/
def fieldReset (f : KakurasuField) : KakurasuField :=
  if f.readOnly then f else { f with status := .clear }

/-- `getField`: `this.state.fields[row + "-" + column]` (as an option; the JS
code would throw further down the line when the key is absent). -/
def getField? (fields : List ((Nat × Nat) × KakurasuField)) (row column : Nat) :
    Option KakurasuField :=
  List.lookup (row, column) fields

def defaultField : KakurasuField := { status := .clear }

/-- Total variant of `getField?` used inside summations; the theorems only
evaluate it at keys that exist (missing keys are a JS `TypeError`). -/
def getFieldD (fields : List ((Nat × Nat) × KakurasuField)) (row column : Nat) :
    KakurasuField :=
  (getField? fields row column).getD defaultField

/-- In-place mutation `field.setStatus(status)` of the field stored under
`(row, column)`; keys are unique, so a conditional map is the JS aliasing. -/
def setFieldStatusInFields (fields : List ((Nat × Nat) × KakurasuField))
    (row column : Nat) (status : KStatus) : List ((Nat × Nat) × KakurasuField) :=
  fields.map (fun p => if p.1 = (row, column) then (p.1, { p.2 with status := status }) else p)

/-- `_applyMove`: fails iff the target field is read-only, otherwise sets the
field's status to `move.nextStatus`.  Returns (applied, new state). -/
def applyMove (g : Kakurasu) (move : KMove) : Bool × Kakurasu :=
  match getField? g.fields move.row move.column with
  | none => (false, g)
  | some field =>
    if field.readOnly then (false, g)
    else (true, { g with fields := setFieldStatusInFields g.fields move.row move.column move.nextStatus })

/-- JS `array.slice(0, e)` on the move history (`e` may be negative). -/
def jsSliceTo (l : List KMove) (e : Int) : List KMove :=
  if e < 0 then l.take (l.length - e.natAbs) else l.take e.toNat

/-- `_deleteFutureMoveHistory`: with a numeric cursor keep `slice(0, cursor+1)`,
with a `null` cursor empty the history. -/
def deleteFutureMoveHistory (g : Kakurasu) : Kakurasu :=
  match g.currentMoveIndex with
  | some i => { g with moveHistory := jsSliceTo g.moveHistory (i + 1) }
  | none => { g with moveHistory := [] }

/-- `_calcNextCurrentMoveIndex(diff)`: from `null`, a positive `diff` enters at
index `0` (index `diff-1` when `diff > 1`); from a numeric cursor, add `diff`
and fall back to `null` below zero. -/
def calcNextCurrentMoveIndex (cur : Option Int) (diff : Int) : Option Int :=
  match cur with
  | none => if diff > 0 then (if diff - 1 > 0 then some (diff - 1) else some 0) else none
  | some v => if v + diff < 0 then none else some (v + diff)

/-- `_addMoveToHistory`: truncate the redoable future, push the move, advance
the cursor by `+1`. -/
def addMoveToHistory (g : Kakurasu) (move : KMove) : Kakurasu :=
  let g1 := deleteFutureMoveHistory g
  let g2 := { g1 with moveHistory := g1.moveHistory ++ [move] }
  { g2 with currentMoveIndex := calcNextCurrentMoveIndex g2.currentMoveIndex 1 }

/-- `_makeMove`: apply, and only on success record the move in the history. -/
def makeMove (g : Kakurasu) (move : KMove) : Bool × Kakurasu :=
  let r := applyMove g move
  if r.1 then (true, addMoveToHistory r.2 move) else (false, r.2)

/-- `_setFieldStatus`: build the move from the field's current status and
submit it (the JS code throws when the field does not exist). -/
def setFieldStatus (g : Kakurasu) (row column : Nat) (status : KStatus) : Bool × Kakurasu :=
  match getField? g.fields row column with
  | none => (false, g)
  | some field =>
    makeMove g { row := row, column := column, previousStatus := field.status, nextStatus := status }

def setFieldActive (g : Kakurasu) (row column : Nat) : Bool × Kakurasu :=
  setFieldStatus g row column .active

def setFieldFlagged (g : Kakurasu) (row column : Nat) : Bool × Kakurasu :=
  setFieldStatus g row column .flagged

def setFieldClear (g : Kakurasu) (row column : Nat) : Bool × Kakurasu :=
  setFieldStatus g row column .clear

/-- `getMoveFromHistoryAsCopy(moveIndex)`: `moveHistory[moveIndex]`, which is
`undefined` for `null` or out-of-range (including negative) indices. -/
def getMoveFromHistory (hist : List KMove) (idx : Option Int) : Option KMove :=
  match idx with
  | none => none
  | some i => if i < 0 then none else hist[i.toNat]?

def isPossibleToUndoMove (g : Kakurasu) : Bool :=
  (getMoveFromHistory g.moveHistory (calcNextCurrentMoveIndex g.currentMoveIndex 0)).isSome

def isPossibleToRedoMove (g : Kakurasu) : Bool :=
  (getMoveFromHistory g.moveHistory (calcNextCurrentMoveIndex g.currentMoveIndex 1)).isSome

/-- `undoMove`: when possible, swap the move's statuses, step the cursor back
(`null` below index 0), and apply the inverse. -/
def undoMove (g : Kakurasu) : Bool × Kakurasu :=
  if isPossibleToUndoMove g then
    match getMoveFromHistory g.moveHistory (calcNextCurrentMoveIndex g.currentMoveIndex 0) with
    | some m =>
      let inverse : KMove := { m with previousStatus := m.nextStatus, nextStatus := m.previousStatus }
      applyMove { g with currentMoveIndex := calcNextCurrentMoveIndex g.currentMoveIndex (-1) } inverse
    | none => (false, g)
  else (false, g)

/-- `redoMove`: when possible, advance the cursor and re-apply the move found
at the new position. -/
def redoMove (g : Kakurasu) : Bool × Kakurasu :=
  if isPossibleToRedoMove g then
    match getMoveFromHistory g.moveHistory (calcNextCurrentMoveIndex g.currentMoveIndex 1) with
    | some m =>
      applyMove { g with currentMoveIndex := calcNextCurrentMoveIndex g.currentMoveIndex 1 } m
    | none => (false, g)
  else (false, g)

/-- `resetGame`: `_reset` every field, then clear the history and cursor. -/
def resetGame (g : Kakurasu) : Kakurasu :=
  { g with fields := g.fields.map (fun p => (p.1, fieldReset p.2)),
           moveHistory := [],
           currentMoveIndex := none }

def getAmountMoves (g : Kakurasu) : Nat :=
  g.moveHistory.length

/-!  Derived meta information (`_loadFieldMetaInformations`). -/

/-- One step of the `highestColumnKey` scan.  The JS test is
`!highestColumnKey || highestColumnKey < column`: it also fires when the
stored key is `0` (falsy). -/
def updHighestColumnKey (stored : Option Nat) (column : Nat) : Option Nat :=
  match stored with
  | none => some column
  | some v => if v = 0 || v < column then some column else some v

/-- One step of the `highestRowKey` scan.  The JS test is
`!highestRowKey || highestRowKey < column` — it compares against `column`,
not `row`, and then stores `row`. -/
def updHighestRowKey (stored : Option Nat) (column row : Nat) : Option Nat :=
  match stored with
  | none => some row
  | some v => if v = 0 || v < column then some row else some v

/-- `_loadFiledMetaInformationsAmountRowsAndColumns`, returning
`(amountRows, amountColumns)`.  Keys are written as `row + "-" + column`, but
the loop reads `split[0]` into its `column` variable and `split[1]` into its
`row` variable (i.e. swapped relative to `_getFieldKey`). -/
def loadAmountRowsAndColumns (keys : List (Nat × Nat)) : Nat × Nat :=
  let res := keys.foldl
    (fun (st : Option Nat × Option Nat) key =>
      let column := key.1
      let row := key.2
      (updHighestRowKey st.1 column row, updHighestColumnKey st.2 column))
    (none, none)
  ((match res.1 with | none => 0 | some v => v + 1),
   (match res.2 with | none => 0 | some v => v + 1))

/-- `getWeight(index) = index + 1`. -/
def getWeight (index : Nat) : Nat := index + 1

/-- The coordinates visited by `_getFieldsInRowColumn(forRow, index)`.  Note
the source sizes the loop with `_getAmountRowColumns(forRow)`: a row is
traversed over `amountRows` many columns and a column over `amountColumns`
many rows (harmless only on square grids). -/
def fieldsInRowColumnCoords (amountRows amountColumns : Nat) (forRow : Bool)
    (index : Nat) : List (Nat × Nat) :=
  (List.range (if forRow then amountRows else amountColumns)).map
    (fun i => if forRow then (index, i) else (i, index))

/-- The solution-weight sum computed by
`_loadFieldMetaInformationsContraintsForFields` for one row/column:
`weight` is taken from `field.column` for a row and `field.row` for a
column (`_getWeightForField`). -/
def solutionSumValue (fields : List ((Nat × Nat) × KakurasuField))
    (amountRows amountColumns : Nat) (forRow : Bool) (index : Nat) : Nat :=
  (fieldsInRowColumnCoords amountRows amountColumns forRow index).foldl
    (fun acc rc =>
      let field := getFieldD fields rc.1 rc.2
      let weight := getWeight (if forRow then rc.2 else rc.1)
      if field.solution then acc + weight else acc)
    0

/-- `_getRowColumnSumValue`: the live weighted sum of Active fields. -/
def getRowColumnSumValue (g : Kakurasu) (forRow : Bool) (index : Nat) : Nat :=
  (fieldsInRowColumnCoords g.amountRows g.amountColumns forRow index).foldl
    (fun acc rc =>
      let field := getFieldD g.fields rc.1 rc.2
      let weight := getWeight (if forRow then rc.2 else rc.1)
      if field.status = .active then acc + weight else acc)
    0

/-- The game constructor.  `stateCurrentMoveIndex` goes through
`state.currentMoveIndex || null` (so a supplied `0` collapses to `null`) and
a `null` cursor with a non-empty history is backfilled to `length - 1`;
then the meta information is derived from the fields. -/
def mkKakurasu (stateMoveHistory : List KMove) (stateCurrentMoveIndex : Option Int)
    (stateFields : List ((Nat × Nat) × KakurasuField)) : Kakurasu :=
  let cur0 : Option Int :=
    match stateCurrentMoveIndex with
    | none => none
    | some v => if v = 0 then none else some v
  let cur : Option Int :=
    if cur0 = none ∧ 0 < stateMoveHistory.length
    then some ((stateMoveHistory.length : Int) - 1)
    else cur0
  let amounts := loadAmountRowsAndColumns (stateFields.map (fun p => p.1))
  { fields := stateFields
    moveHistory := stateMoveHistory
    currentMoveIndex := cur
    amountRows := amounts.1
    amountColumns := amounts.2
    rowConstraints :=
      (List.range amounts.1).map (solutionSumValue stateFields amounts.1 amounts.2 true)
    columnConstraints :=
      (List.range amounts.2).map (solutionSumValue stateFields amounts.1 amounts.2 false) }

/-!  Constraint checks and the win condition. -/

def getAmountRows (g : Kakurasu) : Nat := g.amountRows

def getAmountColumns (g : Kakurasu) : Nat := g.amountColumns

/-- `_getConstraintValue`: a cache lookup; `undefined` out of range. -/
def getConstraintValue (g : Kakurasu) (forRow : Bool) (index : Nat) : Option Nat :=
  (if forRow then g.rowConstraints else g.columnConstraints)[index]?

/-- `_isRowColumnConstraintSatisfied`: strict equality of the cached target
against the live sum (`undefined === n` is `false`). -/
def isRowColumnConstraintSatisfied (g : Kakurasu) (forRow : Bool) (index : Nat) : Bool :=
  getConstraintValue g forRow index == some (getRowColumnSumValue g forRow index)

def isRowConstraintSatisfied (g : Kakurasu) (row : Nat) : Bool :=
  isRowColumnConstraintSatisfied g true row

def isColumnConstraintSatisfied (g : Kakurasu) (column : Nat) : Bool :=
  isRowColumnConstraintSatisfied g false column

/-- `_areAllRowColumnContraintsSatisfied(forRow)`: the loop bound follows
`forRow`, but the body calls `_isRowColumnConstraintSatisfied(true, i)` with
a hard-coded `true` discriminator. -/
def areAllRowColumnContraintsSatisfied (g : Kakurasu) (forRow : Bool) : Bool :=
  (List.range (if forRow then g.amountRows else g.amountColumns)).all
    (fun i => isRowColumnConstraintSatisfied g true i)

/-- `isGameWon`: both passes must succeed. -/
def isGameWon (g : Kakurasu) : Bool :=
  areAllRowColumnContraintsSatisfied g true && areAllRowColumnContraintsSatisfied g false

/-!  Level generator (`KakurasuLevelGenerator`). -/

/-- Generator input: absent JS properties are `none`.  Values are rationals
because the default `amountMaximumInRow = rows / 2` is a JS float division. -/
structure GeneratorConfig where
  rows : Option ℚ := none
  columns : Option ℚ := none
  amountMinimumInRow : Option ℚ := none
  amountMaximumInRow : Option ℚ := none
  amountMinimumInColumn : Option ℚ := none
  amountMaximumInColumn : Option ℚ := none
deriving DecidableEq, Repr

structure NormalizedGeneratorConfig where
  rows : ℚ
  columns : ℚ
  amountMinimumInRow : ℚ
  amountMaximumInRow : ℚ
  amountMinimumInColumn : ℚ
  amountMaximumInColumn : ℚ
deriving DecidableEq, Repr

/-- JS defaulting `x || d`: the default also replaces an explicit `0`. -/
def jsOr (x : Option ℚ) (d : ℚ) : ℚ :=
  match x with
  | none => d
  | some v => if v = 0 then d else v

/-- The five-step clamp chain `generateLevel` runs for each axis, in source
order: raise a negative minimum to 0, cap the minimum at the limit, cap the
maximum at the limit, raise a negative maximum to 0, and finally raise the
maximum to the minimum when it is smaller. -/
def clampMinMax (limit minV maxV : ℚ) : ℚ × ℚ :=
  let min1 := if minV < 0 then 0 else minV
  let min2 := if min1 > limit then limit else min1
  let max1 := if maxV > limit then limit else maxV
  let max2 := if max1 < 0 then 0 else max1
  let max3 := if max2 < min2 then min2 else max2
  (min2, max3)

/-- The configuration normalization prefix of
`KakurasuLevelGenerator.generateLevel` (defaults, then both clamp chains). -/
def normalizeGeneratorConfig (config : GeneratorConfig) : NormalizedGeneratorConfig :=
  let rows := jsOr config.rows 5
  let columns := jsOr config.columns rows
  let rowMM := clampMinMax rows
    (jsOr config.amountMinimumInRow 1) (jsOr config.amountMaximumInRow (rows / 2))
  let colMM := clampMinMax columns
    (jsOr config.amountMinimumInColumn 1) (jsOr config.amountMaximumInColumn (columns / 2))
  { rows := rows
    columns := columns
    amountMinimumInRow := rowMM.1
    amountMaximumInRow := rowMM.2
    amountMinimumInColumn := colMM.1
    amountMaximumInColumn := colMM.2 }

/-- `_initEmptyField`: a fresh clear field for every coordinate, keys created
in row-major order. -/
def initEmptyField (rows columns : Nat) : List ((Nat × Nat) × KakurasuField) :=
  (List.range rows).foldr
    (fun y acc => ((List.range columns).map (fun x => ((y, x), defaultField))) ++ acc)
    []

/-- `field.setIsSolution(true)` on the field stored under `(row, column)`. -/
def setIsSolutionInFields (fields : List ((Nat × Nat) × KakurasuField))
    (row column : Nat) : List ((Nat × Nat) × KakurasuField) :=
  fields.map (fun p => if p.1 = (row, column) then (p.1, { p.2 with solution := true }) else p)

/-- `_setSolutionFieldsForRowColumn`.  The randomness of
`_selectRandomAmountIndexes` is modelled by the oracle `sel`, which yields
the list of selected inner indexes for a given pass (`forRow`) and outer
index; the marking of the selected cells is translated literally. -/
def setSolutionFieldsForRowColumn (forRow : Bool)
    (fields : List ((Nat × Nat) × KakurasuField)) (rows columns : Nat)
    (sel : Bool → Nat → List Nat) : List ((Nat × Nat) × KakurasuField) :=
  (List.range (if forRow then rows else columns)).foldl
    (fun fs outerIndex =>
      (sel forRow outerIndex).foldl
        (fun fs2 solutionIndex =>
          let row := if forRow then outerIndex else solutionIndex
          let column := if forRow then solutionIndex else outerIndex
          setIsSolutionInFields fs2 row column)
        fs)
    fields

/-- The field set produced by `generateLevel` for already-normalized integer
`rows`/`columns` and the random selections captured in `sel`. -/
def generateLevelFields (rows columns : Nat) (sel : Bool → Nat → List Nat) :
    List ((Nat × Nat) × KakurasuField) :=
  setSolutionFieldsForRowColumn false
    (setSolutionFieldsForRowColumn true (initEmptyField rows columns) rows columns sel)
    rows columns sel

/-!  Concrete instances used by the individual claim theorems. -/

/-- A 3×3 board: the solution mask is the single cell `(0,2)` (row targets
`[3,0,0]`, column targets `[0,0,1]`), and the player has `(0,0)` and `(0,1)`
Active (every row sum matches, column sums 1,2,0 do not). -/
def fieldsA : List ((Nat × Nat) × KakurasuField) :=
  [((0, 0), { status := .active }),
   ((0, 1), { status := .active }),
   ((0, 2), { status := .clear, solution := true }),
   ((1, 0), { status := .clear }),
   ((1, 1), { status := .clear }),
   ((1, 2), { status := .clear }),
   ((2, 0), { status := .clear }),
   ((2, 1), { status := .clear }),
   ((2, 2), { status := .clear })]

def gameA : Kakurasu := mkKakurasu [] none fieldsA

/-- A selection oracle that always picks index 0: one possible run of
`_selectRandomAmountIndexes` for `generateLevel({rows: 1, columns: 2})`
(both clamped count ranges are exactly `[1, 1]` there). -/
def selB : Bool → Nat → List Nat := fun _ _ => [0]

def fieldsB : List ((Nat × Nat) × KakurasuField) := generateLevelFields 1 2 selB

/-- A 1×1 board with a single clear cell. -/
def fieldsC : List ((Nat × Nat) × KakurasuField) := [((0, 0), { status := .clear })]

def moveCA : KMove := { row := 0, column := 0, previousStatus := .clear, nextStatus := .active }

def moveCB : KMove := { row := 0, column := 0, previousStatus := .active, nextStatus := .clear }

/-- A 2×2 all-clear board with no solution cells. -/
def fieldsD : List ((Nat × Nat) × KakurasuField) :=
  [((0, 0), { status := .clear }),
   ((0, 1), { status := .clear }),
   ((1, 0), { status := .clear }),
   ((1, 1), { status := .clear })]

def gameD : Kakurasu := mkKakurasu [] none fieldsD

/-- `m1; m2; undo(); m3` on the 2×2 board (the claim C4 scenario). -/
def gameDAfterScenario : Kakurasu :=
  (setFieldActive (undoMove (setFieldActive (setFieldActive gameD 0 0).2 0 1).2).2 1 1).2

/-- A 1×2 board with one read-only active cell and one ordinary active cell. -/
def fieldsE : List ((Nat × Nat) × KakurasuField) :=
  [((0, 0), { status := .active, readOnly := true }),
   ((0, 1), { status := .active })]

def gameE : Kakurasu := mkKakurasu [] none fieldsE

/-- The claim C9 counterexample configuration: negative `rows` together with
an explicitly configured `amountMinimumInRow` of `0`. -/
def configX : GeneratorConfig := { rows := some (-3), amountMinimumInRow := some 0 }

/-- A numeric cursor is never negative (true of every reachable state; a
snapshot may in principle supply a negative cursor). -/
def cursorNonnegB (g : Kakurasu) : Bool :=
  match g.currentMoveIndex with
  | none => true
  | some i => decide (0 ≤ i)

/-- The cursor is `null` or a valid zero-based index into the history. -/
def cursorConsistentB (g : Kakurasu) : Bool :=
  match g.currentMoveIndex with
  | none => true
  | some i => decide (0 ≤ i ∧ i < (g.moveHistory.length : Int))

/-!  Helper lemmas. -/

theorem lookup_map_value (h : KakurasuField → KakurasuField) :
    ∀ (l : List ((Nat × Nat) × KakurasuField)) (k : Nat × Nat),
      List.lookup k (l.map (fun p => (p.1, h p.2))) = (List.lookup k l).map h := by
  intro l k
  induction l with
  | nil => simp
  | cons a t ih =>
    by_cases hk : k = a.1
    · subst hk
      simp [List.lookup]
    · have hb : (k == a.1) = false := beq_eq_false_iff_ne.mpr hk
      simp [List.lookup, hb, ih]

theorem lookup_setFieldStatusInFields (l : List ((Nat × Nat) × KakurasuField))
    (r c : Nat) (s : KStatus) :
    List.lookup (r, c) (setFieldStatusInFields l r c s)
      = (List.lookup (r, c) l).map (fun f => { f with status := s }) := by
  induction l with
  | nil => simp [setFieldStatusInFields]
  | cons a t ih =>
    by_cases hk : a.1 = (r, c)
    · simp only [setFieldStatusInFields, List.map_cons, if_pos hk] at *
      rw [← hk]
      simp [List.lookup, ih, hk]
    · have hb : ((r, c) == a.1) = false := beq_eq_false_iff_ne.mpr (fun h => hk h.symm)
      simp only [setFieldStatusInFields, List.map_cons, if_neg hk] at *
      simp [List.lookup, hb, ih]

theorem setFieldStatusInFields_collapse (l : List ((Nat × Nat) × KakurasuField))
    (r c : Nat) (s1 s2 : KStatus) :
    setFieldStatusInFields (setFieldStatusInFields l r c s1) r c s2
      = setFieldStatusInFields l r c s2 := by
  unfold setFieldStatusInFields
  rw [List.map_map]
  congr 1
  funext p
  by_cases hp : p.1 = (r, c) <;> simp [Function.comp, hp]

/-!  Claim C1. -/

/-- C1 (code bug evidence): the claim states that `isGameWon()` is true iff
every row and every column target matches its live Active-weighted sum, with
the column pass compared against column targets.  The source instead calls
`_isRowColumnConstraintSatisfied(true, i)` with a hard-coded `true` inside
`_areAllRowColumnContraintsSatisfied`, so the column pass re-checks row
constraints.  On `gameA` every row target is met but column 0 is not
(`1 ≠ 0`), yet `isGameWon` returns `true`. -/
theorem claim_C1_isGameWon_ignores_column_targets :
    isGameWon gameA = true ∧ isColumnConstraintSatisfied gameA 0 = false := by
  decide

/-!  Claim C2. -/

/-- C2 (code bug evidence): the claim states that a grid generated with
`rows = R`, `columns = C` reports `getAmountRows() == R` and
`getAmountColumns() == C`.  `fieldsB` is a level generated with
`rows = 1, columns = 2` (its keys are exactly `0-0` and `0-1`), yet
`_loadFiledMetaInformationsAmountRowsAndColumns` — which splits each key
with `split[0]` read as `column` and `split[1]` as `row`, and updates
`highestRowKey` under a comparison against `column` — derives
`amountRows = 2`, `amountColumns = 1`. -/
theorem claim_C2_amounts_swapped_on_generated_grid :
    fieldsB.map (fun p => p.1) = [(0, 0), (0, 1)] ∧
    loadAmountRowsAndColumns (fieldsB.map (fun p => p.1)) = (2, 1) := by
  decide

/-!  Claim C3. -/

/-- C3 (code bug evidence): the claim states that a snapshot cursor of `0` is
read as the committed index 0 and `null` as Empty.  The constructor runs
`state.currentMoveIndex || null`, collapsing a supplied `0` to `null`, and
then backfills any `null` cursor with non-empty history to `length - 1`: a
snapshot with two moves and cursor `0` loads with cursor `1`, and a snapshot
with no moves and cursor `0` loads with the Empty cursor. -/
theorem claim_C3_zero_cursor_conflated :
    (mkKakurasu [moveCA, moveCB] (some 0) fieldsC).currentMoveIndex = some 1 ∧
    (mkKakurasu [] (some 0) fieldsC).currentMoveIndex = none := by
  decide

/-!  Claim C7. -/

/-- C7: when no eligible move exists, `undoMove()`/`redoMove()` return `false`
and leave the entire game state (fields, history, cursor) unchanged. -/
theorem claim_C7_noop_undo_redo (g : Kakurasu) :
    (isPossibleToUndoMove g = false → undoMove g = (false, g)) ∧
    (isPossibleToRedoMove g = false → redoMove g = (false, g)) := by
  constructor
  · intro h
    unfold undoMove
    simp [h]
  · intro h
    unfold redoMove
    simp [h]

/-- Witness for C7 on the fresh 2×2 game, where neither undo nor redo is
possible. -/
theorem claim_C7_witness :
    undoMove gameD = (false, gameD) ∧ redoMove gameD = (false, gameD) :=
  ⟨(claim_C7_noop_undo_redo gameD).1 (by decide),
   (claim_C7_noop_undo_redo gameD).2 (by decide)⟩

/-!  Claim C6. -/

theorem setFieldStatus_readonly_spec (g : Kakurasu) (r c : Nat) (s : KStatus)
    (f : KakurasuField) (hf : getField? g.fields r c = some f) :
    (setFieldStatus g r c s).1 = !f.readOnly ∧
    (f.readOnly = true → (setFieldStatus g r c s).2 = g) := by
  unfold setFieldStatus
  rw [hf]
  cases hro : f.readOnly with
  | true =>
    constructor
    · simp [makeMove, applyMove, hf, hro]
    · intro _
      simp [makeMove, applyMove, hf, hro]
  | false =>
    constructor
    · simp [makeMove, applyMove, hf, hro]
    · intro h
      simp at h

/-- C6: a move submitted through `setFieldActive`/`setFieldFlagged`/
`setFieldClear` fails (returns `false`) iff the target field is read-only,
and on failure the game state — in particular the move history and the
cursor — is completely unchanged. -/
theorem claim_C6_move_rejected_iff_readonly (g : Kakurasu) (r c : Nat)
    (f : KakurasuField) (hf : getField? g.fields r c = some f) :
    (setFieldActive g r c).1 = !f.readOnly ∧
    (setFieldFlagged g r c).1 = !f.readOnly ∧
    (setFieldClear g r c).1 = !f.readOnly ∧
    (f.readOnly = true →
      (setFieldActive g r c).2 = g ∧
      (setFieldFlagged g r c).2 = g ∧
      (setFieldClear g r c).2 = g) := by
  refine ⟨(setFieldStatus_readonly_spec g r c .active f hf).1,
          (setFieldStatus_readonly_spec g r c .flagged f hf).1,
          (setFieldStatus_readonly_spec g r c .clear f hf).1,
          fun h => ⟨(setFieldStatus_readonly_spec g r c .active f hf).2 h,
                    (setFieldStatus_readonly_spec g r c .flagged f hf).2 h,
                    (setFieldStatus_readonly_spec g r c .clear f hf).2 h⟩⟩

/-- Witness for C6 on `gameE`: the read-only cell `(0,0)` rejects every move
without touching the state, the ordinary cell `(0,1)` accepts. -/
theorem claim_C6_witness :
    (setFieldActive gameE 0 0).1 = false ∧
    (setFieldActive gameE 0 0).2 = gameE ∧
    (setFieldActive gameE 0 1).1 = true := by
  have h0 := claim_C6_move_rejected_iff_readonly gameE 0 0
    { status := .active, readOnly := true } (by decide)
  have h1 := claim_C6_move_rejected_iff_readonly gameE 0 1
    { status := .active } (by decide)
  exact ⟨h0.1, (h0.2.2.2 rfl).1, h1.1⟩

/-!  Claim C8. -/

theorem fieldReset_idem (f : KakurasuField) : fieldReset (fieldReset f) = fieldReset f := by
  cases hr : f.readOnly <;> simp [fieldReset, hr]

/-- C8: `resetGame()` empties the history, sets the Empty cursor, maps every
stored field to Clear status unless it is read-only — preserving `readOnly`,
`solution` and a read-only field's status — and is idempotent. -/
theorem claim_C8_resetGame_clears_and_is_idempotent (g : Kakurasu) :
    (resetGame g).moveHistory = [] ∧
    (resetGame g).currentMoveIndex = none ∧
    (∀ r c f, getField? g.fields r c = some f →
      getField? (resetGame g).fields r c =
        some { status := if f.readOnly then f.status else .clear,
               readOnly := f.readOnly,
               solution := f.solution }) ∧
    resetGame (resetGame g) = resetGame g := by
  refine ⟨rfl, rfl, ?_, ?_⟩
  · intro r c f hf
    unfold getField? resetGame at *
    rw [lookup_map_value fieldReset g.fields (r, c), hf]
    cases f with
    | mk st ro so => cases ro <;> simp [fieldReset]
  · unfold resetGame
    simp only [List.map_map, Kakurasu.mk.injEq, and_true, true_and]
    congr 1
    funext p
    simp [Function.comp, fieldReset_idem]

/-- Witness for C8 on `gameE`: the read-only active cell keeps its status,
the ordinary active cell is cleared, and the history is emptied. -/
theorem claim_C8_witness :
    (resetGame gameE).moveHistory = [] ∧
    getField? (resetGame gameE).fields 0 0 = some { status := .active, readOnly := true } ∧
    getField? (resetGame gameE).fields 0 1 = some { status := .clear } := by
  have h := claim_C8_resetGame_clears_and_is_idempotent gameE
  exact ⟨h.1,
    h.2.2.1 0 0 { status := .active, readOnly := true } (by decide),
    h.2.2.1 0 1 { status := .active } (by decide)⟩

/-!  Claim C4. -/

/-- C4: recording a new move truncates the history to the prefix up to and
including the cursor, appends the move, and advances the cursor by one; in
the concrete scenario `m1; m2; undo(); m3` on the fresh 2×2 board, redo is
impossible afterwards and the history has exactly 2 moves. -/
theorem claim_C4_new_move_truncates_redo_future (g : Kakurasu) (m : KMove) (i : Int)
    (hcur : g.currentMoveIndex = some i) (hi : 0 ≤ i) :
    (addMoveToHistory g m).moveHistory = g.moveHistory.take (i.toNat + 1) ++ [m] ∧
    (addMoveToHistory g m).currentMoveIndex = some (i + 1) ∧
    isPossibleToRedoMove gameDAfterScenario = false ∧
    getAmountMoves gameDAfterScenario = 2 := by
  have hnn : ¬ (i + 1 < 0) := by omega
  have htn : (i + 1).toNat = i.toNat + 1 := by omega
  refine ⟨?_, ?_, by decide, by decide⟩
  · simp [addMoveToHistory, deleteFutureMoveHistory, hcur, jsSliceTo, hnn, htn]
  · simp [addMoveToHistory, deleteFutureMoveHistory, hcur, calcNextCurrentMoveIndex, hnn]

/-- Witness for C4: after one applied move the cursor of the 2×2 game is `0`,
and recording another move keeps that one move and appends the new one. -/
theorem claim_C4_witness :
    (addMoveToHistory (setFieldActive gameD 0 0).2 moveCA).moveHistory
      = (setFieldActive gameD 0 0).2.moveHistory.take 1 ++ [moveCA] ∧
    (addMoveToHistory (setFieldActive gameD 0 0).2 moveCA).currentMoveIndex = some 1 ∧
    isPossibleToRedoMove gameDAfterScenario = false ∧
    getAmountMoves gameDAfterScenario = 2 :=
  claim_C4_new_move_truncates_redo_future (setFieldActive gameD 0 0).2 moveCA 0
    (by decide) (by decide)

/-!  Claim C9. -/

/-- C9 counterexample: the claim asserts that after normalization every bound
lies in `[0, rows]`/`[0, columns]` and that an explicitly configured `0` is
kept as `0`.  For `configX` (`rows = -3`, `amountMinimumInRow = 0`) the JS
defaulting `config.amountMinimumInRow || 1` replaces the configured `0` by
the default `1`, and the clamp `min > rows → min = rows` then drags it to
`-3`: the result is negative (outside every `[0, rows]`) and not `0`. -/
theorem claim_C9_counterexample :
    (normalizeGeneratorConfig configX).amountMinimumInRow = -3 ∧
    ¬ (0 ≤ (normalizeGeneratorConfig configX).amountMinimumInRow) ∧
    (normalizeGeneratorConfig configX).amountMinimumInRow ≠ 0 := by
  refine ⟨?_, ?_, ?_⟩ <;> norm_num [normalizeGeneratorConfig, clampMinMax, jsOr, configX]

/-- A configuration slot is absent or holds a nonnegative value. -/
def optNonneg (o : Option ℚ) : Prop := ∀ v, o = some v → 0 ≤ v

theorem jsOr_nonneg (o : Option ℚ) (d : ℚ) (ho : optNonneg o) (hd : 0 ≤ d) :
    0 ≤ jsOr o d := by
  cases o with
  | none => simpa [jsOr] using hd
  | some v =>
    by_cases hv : v = 0
    · simpa [jsOr, hv] using hd
    · simpa [jsOr, hv] using ho v rfl

theorem clampMinMax_spec (limit a b : ℚ) (h : 0 ≤ limit) :
    0 ≤ (clampMinMax limit a b).1 ∧ (clampMinMax limit a b).1 ≤ limit ∧
    0 ≤ (clampMinMax limit a b).2 ∧ (clampMinMax limit a b).2 ≤ limit ∧
    (clampMinMax limit a b).1 ≤ (clampMinMax limit a b).2 := by
  unfold clampMinMax
  dsimp only
  refine ⟨?_, ?_, ?_, ?_, ?_⟩ <;> split_ifs <;> linarith

theorem clampMinMax_fst_indep (limit a b b' : ℚ) :
    (clampMinMax limit a b).1 = (clampMinMax limit a b').1 := rfl

/-- C9 (amended): for every configuration whose `rows`/`columns`, when
supplied, are nonnegative, the normalized bounds lie in `[0, rows]` resp.
`[0, columns]`; the maximum is at least the minimum, and resolving
`min > max` never changes the minimum (it does not depend on the configured
maximum at all); a bound explicitly configured as `0` is treated as absent
and replaced by its default — it is not kept as `0`.  No configuration is
rejected (`normalizeGeneratorConfig` is total). -/
theorem claim_C9_config_normalization (config : GeneratorConfig) (m : Option ℚ)
    (hr : optNonneg config.rows) (hc : optNonneg config.columns) :
    (0 ≤ (normalizeGeneratorConfig config).amountMinimumInRow ∧
      (normalizeGeneratorConfig config).amountMinimumInRow ≤ (normalizeGeneratorConfig config).rows) ∧
    (0 ≤ (normalizeGeneratorConfig config).amountMaximumInRow ∧
      (normalizeGeneratorConfig config).amountMaximumInRow ≤ (normalizeGeneratorConfig config).rows) ∧
    (0 ≤ (normalizeGeneratorConfig config).amountMinimumInColumn ∧
      (normalizeGeneratorConfig config).amountMinimumInColumn ≤ (normalizeGeneratorConfig config).columns) ∧
    (0 ≤ (normalizeGeneratorConfig config).amountMaximumInColumn ∧
      (normalizeGeneratorConfig config).amountMaximumInColumn ≤ (normalizeGeneratorConfig config).columns) ∧
    (normalizeGeneratorConfig config).amountMinimumInRow
      ≤ (normalizeGeneratorConfig config).amountMaximumInRow ∧
    (normalizeGeneratorConfig config).amountMinimumInColumn
      ≤ (normalizeGeneratorConfig config).amountMaximumInColumn ∧
    (normalizeGeneratorConfig { config with amountMaximumInRow := m }).amountMinimumInRow
      = (normalizeGeneratorConfig config).amountMinimumInRow ∧
    (normalizeGeneratorConfig { config with amountMaximumInColumn := m }).amountMinimumInColumn
      = (normalizeGeneratorConfig config).amountMinimumInColumn ∧
    normalizeGeneratorConfig { config with amountMinimumInRow := some 0 }
      = normalizeGeneratorConfig { config with amountMinimumInRow := none } ∧
    normalizeGeneratorConfig { config with amountMaximumInRow := some 0 }
      = normalizeGeneratorConfig { config with amountMaximumInRow := none } ∧
    normalizeGeneratorConfig { config with amountMinimumInColumn := some 0 }
      = normalizeGeneratorConfig { config with amountMinimumInColumn := none } ∧
    normalizeGeneratorConfig { config with amountMaximumInColumn := some 0 }
      = normalizeGeneratorConfig { config with amountMaximumInColumn := none } := by
  have hrows : 0 ≤ jsOr config.rows 5 := jsOr_nonneg _ _ hr (by norm_num)
  have hcols : 0 ≤ jsOr config.columns (jsOr config.rows 5) := jsOr_nonneg _ _ hc hrows
  have hrow := clampMinMax_spec (jsOr config.rows 5)
    (jsOr config.amountMinimumInRow 1) (jsOr config.amountMaximumInRow (jsOr config.rows 5 / 2)) hrows
  have hcol := clampMinMax_spec (jsOr config.columns (jsOr config.rows 5))
    (jsOr config.amountMinimumInColumn 1)
    (jsOr config.amountMaximumInColumn (jsOr config.columns (jsOr config.rows 5) / 2)) hcols
  refine ⟨⟨hrow.1, hrow.2.1⟩, ⟨hrow.2.2.1, hrow.2.2.2.1⟩,
          ⟨hcol.1, hcol.2.1⟩, ⟨hcol.2.2.1, hcol.2.2.2.1⟩,
          hrow.2.2.2.2, hcol.2.2.2.2, rfl, rfl, ?_, ?_, ?_, ?_⟩ <;>
    simp [normalizeGeneratorConfig, jsOr]

/-- Witness for C9 at the empty (all-default) configuration. -/
theorem claim_C9_witness :
    0 ≤ (normalizeGeneratorConfig {}).amountMinimumInRow ∧
    (normalizeGeneratorConfig {}).amountMinimumInRow ≤ (normalizeGeneratorConfig {}).rows :=
  (claim_C9_config_normalization {} none (fun _ h => nomatch h) (fun _ h => nomatch h)).1

theorem getElem?_some_lt (l : List KMove) (n : Nat) (a : KMove) (h : l[n]? = some a) :
    n < l.length := by
  by_contra hc
  push_neg at hc
  rw [List.getElem?_eq_none hc] at h
  cases h

theorem cursorConsistentB_applyMove (g : Kakurasu) (m : KMove) :
    cursorConsistentB (applyMove g m).2 = cursorConsistentB g := by
  unfold applyMove
  split
  · rfl
  · split <;> rfl

theorem applyMove_snd_moveHistory (g : Kakurasu) (m : KMove) :
    ((applyMove g m).2).moveHistory = g.moveHistory := by
  unfold applyMove
  split
  · rfl
  · split <;> rfl

theorem applyMove_snd_currentMoveIndex (g : Kakurasu) (m : KMove) :
    ((applyMove g m).2).currentMoveIndex = g.currentMoveIndex := by
  unfold applyMove
  split
  · rfl
  · split <;> rfl

theorem addMoveToHistory_cursor_spec (g : Kakurasu) (m : KMove)
    (h : cursorConsistentB g = true) :
    cursorConsistentB (addMoveToHistory g m) = true ∧
    (addMoveToHistory g m).currentMoveIndex
      = some (((addMoveToHistory g m).moveHistory.length : Int) - 1) := by
  cases hcur : g.currentMoveIndex with
  | none =>
    constructor
    · simp [addMoveToHistory, deleteFutureMoveHistory, hcur, calcNextCurrentMoveIndex,
            cursorConsistentB]
    · simp [addMoveToHistory, deleteFutureMoveHistory, hcur, calcNextCurrentMoveIndex]
  | some i =>
    have hI : 0 ≤ i ∧ i < (g.moveHistory.length : Int) := by
      unfold cursorConsistentB at h
      rw [hcur] at h
      simpa using h
    have hnn : ¬ (i + 1 < 0) := by omega
    constructor
    · simp only [addMoveToHistory, deleteFutureMoveHistory, hcur, jsSliceTo, if_neg hnn,
                 calcNextCurrentMoveIndex, cursorConsistentB, List.length_append,
                 List.length_take, List.length_cons, List.length_nil]
      simp only [decide_eq_true_eq]
      omega
    · simp only [addMoveToHistory, deleteFutureMoveHistory, hcur, jsSliceTo, if_neg hnn,
                 calcNextCurrentMoveIndex, List.length_append, List.length_take,
                 List.length_cons, List.length_nil, Option.some.injEq]
      omega

theorem setFieldStatus_success_eq (g : Kakurasu) (r c : Nat) (s : KStatus)
    (f : KakurasuField) (hf : getField? g.fields r c = some f) (hro : f.readOnly = false) :
    setFieldStatus g r c s
      = (true, addMoveToHistory
          { g with fields := setFieldStatusInFields g.fields r c s }
          { row := r, column := c, previousStatus := f.status, nextStatus := s }) := by
  unfold setFieldStatus
  rw [hf]
  unfold makeMove applyMove
  dsimp only
  rw [hf]
  simp [hro]

theorem undoMove_cursor_consistent (g : Kakurasu) :
    cursorConsistentB (undoMove g).2 = cursorConsistentB g ∨
    cursorConsistentB (undoMove g).2 = true := by
  by_cases hp : isPossibleToUndoMove g = true
  · right
    have hp2 := hp
    unfold isPossibleToUndoMove at hp2
    cases hcur : g.currentMoveIndex with
    | none =>
      rw [hcur] at hp2
      simp [calcNextCurrentMoveIndex, getMoveFromHistory] at hp2
    | some i =>
      rw [hcur] at hp2
      by_cases hi : i < 0
      · simp [calcNextCurrentMoveIndex, getMoveFromHistory, hi] at hp2
      · have hcalcS : calcNextCurrentMoveIndex (some i) 0 = some i := by
          simp [calcNextCurrentMoveIndex, hi]
        have hcalc0 : calcNextCurrentMoveIndex g.currentMoveIndex 0 = some i := by
          rw [hcur]; exact hcalcS
        rw [hcalcS] at hp2
        simp only [getMoveFromHistory, if_neg hi] at hp2
        obtain ⟨mv, hmv⟩ := Option.isSome_iff_exists.mp hp2
        have hlt : i.toNat < g.moveHistory.length := getElem?_some_lt _ _ _ hmv
        have hmv2 : getMoveFromHistory g.moveHistory (calcNextCurrentMoveIndex g.currentMoveIndex 0) = some mv := by
          rw [hcalc0]
          simp [getMoveFromHistory, hi, hmv]
        unfold undoMove
        rw [if_pos hp, hmv2]
        rw [cursorConsistentB_applyMove]
        unfold cursorConsistentB
        dsimp only
        rw [hcur]
        unfold calcNextCurrentMoveIndex
        dsimp only
        by_cases hneg : i + (-1) < 0
        · rw [if_pos hneg]
        · rw [if_neg hneg]
          simp only [decide_eq_true_eq]
          omega
  · left
    unfold undoMove
    rw [if_neg hp]

theorem redoMove_cursor_consistent (g : Kakurasu) :
    cursorConsistentB (redoMove g).2 = cursorConsistentB g ∨
    cursorConsistentB (redoMove g).2 = true := by
  by_cases hp : isPossibleToRedoMove g = true
  · right
    have hp2 := hp
    unfold isPossibleToRedoMove at hp2
    cases hcur : g.currentMoveIndex with
    | none =>
      rw [hcur] at hp2
      have hcalcS : calcNextCurrentMoveIndex (none : Option Int) 1 = some 0 := by
        simp [calcNextCurrentMoveIndex]
      rw [hcalcS] at hp2
      simp only [getMoveFromHistory] at hp2
      rw [if_neg (by omega : ¬ (0:Int) < 0)] at hp2
      obtain ⟨mv, hmv⟩ := Option.isSome_iff_exists.mp hp2
      have hlt : (0:Int).toNat < g.moveHistory.length := getElem?_some_lt _ _ _ hmv
      have hmv2 : getMoveFromHistory g.moveHistory
          (calcNextCurrentMoveIndex g.currentMoveIndex 1) = some mv := by
        rw [hcur, hcalcS]
        simp only [getMoveFromHistory]
        rw [if_neg (by omega : ¬ (0:Int) < 0)]
        exact hmv
      unfold redoMove
      rw [if_pos hp, hmv2, cursorConsistentB_applyMove]
      unfold cursorConsistentB
      dsimp only
      rw [hcur, hcalcS]
      simp only [decide_eq_true_eq]
      omega
    | some i =>
      rw [hcur] at hp2
      by_cases hi : i + 1 < 0
      · simp [calcNextCurrentMoveIndex, getMoveFromHistory, hi] at hp2
      · have hcalcS : calcNextCurrentMoveIndex (some i) 1 = some (i + 1) := by
          simp [calcNextCurrentMoveIndex, hi]
        rw [hcalcS] at hp2
        simp only [getMoveFromHistory] at hp2
        rw [if_neg hi] at hp2
        obtain ⟨mv, hmv⟩ := Option.isSome_iff_exists.mp hp2
        have hlt : (i + 1).toNat < g.moveHistory.length := getElem?_some_lt _ _ _ hmv
        have hmv2 : getMoveFromHistory g.moveHistory
            (calcNextCurrentMoveIndex g.currentMoveIndex 1) = some mv := by
          rw [hcur, hcalcS]
          simp only [getMoveFromHistory]
          rw [if_neg hi]
          exact hmv
        unfold redoMove
        rw [if_pos hp, hmv2, cursorConsistentB_applyMove]
        unfold cursorConsistentB
        dsimp only
        rw [hcur, hcalcS]
        simp only [decide_eq_true_eq]
        omega
  · left
    unfold redoMove
    rw [if_neg hp]

/-!  Claim C10. -/

/-- C10: every public operation (the `setField*` move path, `undoMove`,
`redoMove`, `resetGame`) preserves the cursor-history consistency invariant
(the cursor is `null` or an index `i` with `0 <= i < moveHistory.length`),
and after a successful new move the cursor equals `moveHistory.length - 1`. -/
theorem claim_C10_cursor_history_invariant (g : Kakurasu) (r c : Nat) (s : KStatus)
    (h : cursorConsistentB g = true) :
    cursorConsistentB (setFieldStatus g r c s).2 = true ∧
    cursorConsistentB (undoMove g).2 = true ∧
    cursorConsistentB (redoMove g).2 = true ∧
    cursorConsistentB (resetGame g) = true ∧
    ((setFieldStatus g r c s).1 = true →
      (setFieldStatus g r c s).2.currentMoveIndex
        = some (((setFieldStatus g r c s).2.moveHistory.length : Int) - 1)) := by
  have hset : cursorConsistentB (setFieldStatus g r c s).2 = true ∧
      ((setFieldStatus g r c s).1 = true →
        (setFieldStatus g r c s).2.currentMoveIndex
          = some (((setFieldStatus g r c s).2.moveHistory.length : Int) - 1)) := by
    cases hgf : getField? g.fields r c with
    | none =>
      unfold setFieldStatus
      rw [hgf]
      exact ⟨h, fun hh => by simp at hh⟩
    | some f =>
      cases hro : f.readOnly with
      | true =>
        have heq : setFieldStatus g r c s = (false, g) := by
          unfold setFieldStatus
          rw [hgf]
          unfold makeMove applyMove
          dsimp only
          rw [hgf]
          simp [hro]
        rw [heq]
        exact ⟨h, fun hh => by simp at hh⟩
      | false =>
        rw [setFieldStatus_success_eq g r c s f hgf hro]
        have hg2 : cursorConsistentB
            { g with fields := setFieldStatusInFields g.fields r c s } = true := h
        have hadd := addMoveToHistory_cursor_spec
          { g with fields := setFieldStatusInFields g.fields r c s }
          { row := r, column := c, previousStatus := f.status, nextStatus := s } hg2
        exact ⟨hadd.1, fun _ => hadd.2⟩
  have hundo : cursorConsistentB (undoMove g).2 = true := by
    rcases undoMove_cursor_consistent g with h1 | h1
    · rw [h1]; exact h
    · exact h1
  have hredo : cursorConsistentB (redoMove g).2 = true := by
    rcases redoMove_cursor_consistent g with h1 | h1
    · rw [h1]; exact h
    · exact h1
  exact ⟨hset.1, hundo, hredo, rfl, hset.2⟩

/-- Witness for C10 on the fresh 2×2 game. -/
theorem claim_C10_witness :
    cursorConsistentB (setFieldStatus gameD 0 0 KStatus.active).2 = true ∧
    cursorConsistentB (undoMove gameD).2 = true ∧
    cursorConsistentB (redoMove gameD).2 = true ∧
    cursorConsistentB (resetGame gameD) = true ∧
    (setFieldStatus gameD 0 0 KStatus.active).2.currentMoveIndex
      = some (((setFieldStatus gameD 0 0 KStatus.active).2.moveHistory.length : Int) - 1) := by
  have h := claim_C10_cursor_history_invariant gameD 0 0 KStatus.active (by decide)
  exact ⟨h.1, h.2.1, h.2.2.1, h.2.2.2.1, h.2.2.2.2 (by decide)⟩

theorem calc_back_forth (j : Int) (hj : 0 ≤ j) :
    calcNextCurrentMoveIndex (calcNextCurrentMoveIndex (some j) (-1)) 1 = some j := by
  unfold calcNextCurrentMoveIndex
  dsimp only
  by_cases hneg : j + (-1) < 0
  · rw [if_pos hneg]
    have hj0 : j = 0 := by omega
    subst hj0
    norm_num
  · rw [if_neg hneg]
    dsimp only
    rw [if_neg (by omega : ¬ (j + -1 + 1 < 0))]
    congr 1
    omega

theorem roundtrip_miss (G : Kakurasu) (j : Int)
    (hcur : G.currentMoveIndex = some j) (hj : 0 ≤ j)
    (hlen : G.moveHistory.length ≤ j.toNat) :
    (redoMove (undoMove G).2).2 = G := by
  have hmv0 : getMoveFromHistory G.moveHistory
      (calcNextCurrentMoveIndex G.currentMoveIndex 0) = none := by
    rw [hcur]
    unfold calcNextCurrentMoveIndex
    dsimp only
    rw [if_neg (by omega : ¬ (j + 0 < 0))]
    unfold getMoveFromHistory
    dsimp only
    rw [if_neg (by omega : ¬ (j + 0 < 0))]
    exact List.getElem?_eq_none (by omega)
  have hposs : isPossibleToUndoMove G = false := by
    unfold isPossibleToUndoMove
    rw [hmv0]
    rfl
  have hundo : undoMove G = (false, G) := by
    unfold undoMove
    rw [hposs]
    simp
  have hmv1 : getMoveFromHistory G.moveHistory
      (calcNextCurrentMoveIndex G.currentMoveIndex 1) = none := by
    rw [hcur]
    unfold calcNextCurrentMoveIndex
    dsimp only
    rw [if_neg (by omega : ¬ (j + 1 < 0))]
    unfold getMoveFromHistory
    dsimp only
    rw [if_neg (by omega : ¬ (j + 1 < 0))]
    exact List.getElem?_eq_none (by omega)
  have hposs2 : isPossibleToRedoMove G = false := by
    unfold isPossibleToRedoMove
    rw [hmv1]
    rfl
  have hredo : redoMove G = (false, G) := by
    unfold redoMove
    rw [hposs2]
    simp
  rw [hundo, hredo]

theorem roundtrip_hit (G : Kakurasu) (T : List KMove) (mv : KMove) (j : Int)
    (hhist : G.moveHistory = T ++ [mv])
    (hcur : G.currentMoveIndex = some j)
    (hj : 0 ≤ j) (hT : j.toNat = T.length)
    (f1 : KakurasuField)
    (hf1 : getField? G.fields mv.row mv.column = some f1)
    (hro1 : f1.readOnly = false)
    (hrestore : setFieldStatusInFields
        (setFieldStatusInFields G.fields mv.row mv.column mv.previousStatus)
        mv.row mv.column mv.nextStatus = G.fields) :
    (redoMove (undoMove G).2).2 = G := by
  have hidx : G.moveHistory[j.toNat]? = some mv := by
    rw [hhist, hT]
    simp
  have hmv0 : getMoveFromHistory G.moveHistory
      (calcNextCurrentMoveIndex G.currentMoveIndex 0) = some mv := by
    rw [hcur]
    unfold calcNextCurrentMoveIndex
    dsimp only
    rw [if_neg (by omega : ¬ (j + 0 < 0))]
    unfold getMoveFromHistory
    dsimp only
    rw [if_neg (by omega : ¬ (j + 0 < 0))]
    rw [show j + 0 = j from by omega]
    exact hidx
  have hposs : isPossibleToUndoMove G = true := by
    unfold isPossibleToUndoMove
    rw [hmv0]
    rfl
  have hstep1 : undoMove G
      = applyMove { G with currentMoveIndex := calcNextCurrentMoveIndex G.currentMoveIndex (-1) }
          { row := mv.row, column := mv.column,
            previousStatus := mv.nextStatus, nextStatus := mv.previousStatus } := by
    unfold undoMove
    rw [if_pos hposs, hmv0]
  have happly1 : applyMove
      { G with currentMoveIndex := calcNextCurrentMoveIndex G.currentMoveIndex (-1) }
      { row := mv.row, column := mv.column,
        previousStatus := mv.nextStatus, nextStatus := mv.previousStatus }
      = (true, { G with
          currentMoveIndex := calcNextCurrentMoveIndex G.currentMoveIndex (-1)
          fields := setFieldStatusInFields G.fields mv.row mv.column mv.previousStatus }) := by
    unfold applyMove
    dsimp only
    rw [hf1]
    dsimp only
    rw [hro1]
    simp
  have hcalc2 : calcNextCurrentMoveIndex
      (calcNextCurrentMoveIndex G.currentMoveIndex (-1)) 1 = some j := by
    rw [hcur]
    exact calc_back_forth j hj
  have hmv1 : getMoveFromHistory G.moveHistory
      (calcNextCurrentMoveIndex (calcNextCurrentMoveIndex G.currentMoveIndex (-1)) 1)
      = some mv := by
    rw [hcalc2]
    unfold getMoveFromHistory
    dsimp only
    rw [if_neg (by omega : ¬ j < 0)]
    exact hidx
  have hf2 : getField?
      (setFieldStatusInFields G.fields mv.row mv.column mv.previousStatus) mv.row mv.column
      = some { f1 with status := mv.previousStatus } := by
    unfold getField? at hf1 ⊢
    rw [lookup_setFieldStatusInFields, hf1]
    rfl
  have hposs2 : isPossibleToRedoMove
      { G with
        currentMoveIndex := calcNextCurrentMoveIndex G.currentMoveIndex (-1)
        fields := setFieldStatusInFields G.fields mv.row mv.column mv.previousStatus } = true := by
    unfold isPossibleToRedoMove
    dsimp only
    rw [hmv1]
    rfl
  have hstep2 : redoMove
      { G with
        currentMoveIndex := calcNextCurrentMoveIndex G.currentMoveIndex (-1)
        fields := setFieldStatusInFields G.fields mv.row mv.column mv.previousStatus }
      = applyMove
          { G with
            currentMoveIndex := some j
            fields := setFieldStatusInFields G.fields mv.row mv.column mv.previousStatus } mv := by
    unfold redoMove
    rw [if_pos hposs2]
    dsimp only
    rw [hmv1, hcalc2]
  have happly2 : applyMove
      { G with
        currentMoveIndex := some j
        fields := setFieldStatusInFields G.fields mv.row mv.column mv.previousStatus } mv
      = (true, { G with
          currentMoveIndex := some j
          fields := setFieldStatusInFields
            (setFieldStatusInFields G.fields mv.row mv.column mv.previousStatus)
            mv.row mv.column mv.nextStatus }) := by
    unfold applyMove
    dsimp only
    rw [hf2]
    dsimp only
    rw [hro1]
    simp
  rw [hstep1, happly1]
  dsimp only
  rw [hstep2, happly2]
  dsimp only
  rw [hrestore, ← hcur]

theorem undo_redo_roundtrip (g : Kakurasu) (r c : Nat) (s : KStatus)
    (f : KakurasuField) (hf : getField? g.fields r c = some f)
    (hro : f.readOnly = false) (hnn : cursorNonnegB g = true) :
    (redoMove (undoMove (setFieldStatus g r c s).2).2).2 = (setFieldStatus g r c s).2 := by
  rw [setFieldStatus_success_eq g r c s f hf hro]
  dsimp only
  have hf1 : getField? (setFieldStatusInFields g.fields r c s) r c
      = some { f with status := s } := by
    unfold getField? at hf ⊢
    rw [lookup_setFieldStatusInFields, hf]
    rfl
  have hro1 : ({ f with status := s } : KakurasuField).readOnly = false := hro
  have hrestore : setFieldStatusInFields
      (setFieldStatusInFields (setFieldStatusInFields g.fields r c s) r c f.status) r c s
      = setFieldStatusInFields g.fields r c s := by
    rw [setFieldStatusInFields_collapse, setFieldStatusInFields_collapse]
  cases hcur : g.currentMoveIndex with
  | none =>
    have hG1 : addMoveToHistory
        { g with
          fields := setFieldStatusInFields g.fields r c s
          currentMoveIndex := none }
        { row := r, column := c, previousStatus := f.status, nextStatus := s }
        = { g with
            fields := setFieldStatusInFields g.fields r c s
            moveHistory := [{ row := r, column := c, previousStatus := f.status, nextStatus := s }]
            currentMoveIndex := some 0 } := by
      unfold addMoveToHistory deleteFutureMoveHistory calcNextCurrentMoveIndex
      dsimp only
      norm_num
    rw [hG1]
    exact roundtrip_hit _ []
      { row := r, column := c, previousStatus := f.status, nextStatus := s } 0
      rfl rfl (by omega) rfl { f with status := s } hf1 hro1 hrestore
  | some i =>
    have hnn2 : 0 ≤ i := by
      unfold cursorNonnegB at hnn
      rw [hcur] at hnn
      simpa using hnn
    have hG1 : addMoveToHistory
        { g with
          fields := setFieldStatusInFields g.fields r c s
          currentMoveIndex := some i }
        { row := r, column := c, previousStatus := f.status, nextStatus := s }
        = { g with
            fields := setFieldStatusInFields g.fields r c s
            moveHistory := g.moveHistory.take (i.toNat + 1)
              ++ [{ row := r, column := c, previousStatus := f.status, nextStatus := s }]
            currentMoveIndex := some (i + 1) } := by
      unfold addMoveToHistory deleteFutureMoveHistory jsSliceTo calcNextCurrentMoveIndex
      dsimp only
      rw [if_neg (by omega : ¬ (i + 1 < 0))]
      rw [show (i + 1).toNat = i.toNat + 1 from by omega]
      rw [if_neg (by omega : ¬ (i + 1 < 0))]
    rw [hG1]
    rcases lt_or_ge i.toNat g.moveHistory.length with hlen | hlen
    · refine roundtrip_hit _ (g.moveHistory.take (i.toNat + 1))
        { row := r, column := c, previousStatus := f.status, nextStatus := s } (i + 1)
        rfl rfl (by omega) ?_ { f with status := s } hf1 hro1 hrestore
      rw [List.length_take]
      omega
    · refine roundtrip_miss _ (i + 1) rfl (by omega) ?_
      dsimp only
      rw [List.length_append, List.length_take]
      simp only [List.length_cons, List.length_nil]
      omega

/-!  Claim C5. -/

/-- C5: for any game state with a nonnegative (or Empty) cursor — true of
every reachable state — and any move applied through the move path to an
existing, non-read-only field, `undoMove()` then `redoMove()` restores the
affected field's status and the history cursor to exactly the post-apply
values (indeed `undo_redo_roundtrip` shows the whole state is restored). -/
theorem claim_C5_undo_redo_restores (g : Kakurasu) (r c : Nat) (s : KStatus)
    (f : KakurasuField) (hf : getField? g.fields r c = some f)
    (hro : f.readOnly = false) (hnn : cursorNonnegB g = true) :
    (getFieldD (redoMove (undoMove (setFieldStatus g r c s).2).2).2.fields r c).status
      = (getFieldD (setFieldStatus g r c s).2.fields r c).status ∧
    (redoMove (undoMove (setFieldStatus g r c s).2).2).2.currentMoveIndex
      = (setFieldStatus g r c s).2.currentMoveIndex := by
  rw [undo_redo_roundtrip g r c s f hf hro hnn]
  exact ⟨rfl, rfl⟩

/-- Witness for C5: applying Active to `(0,0)` of the fresh 2×2 game, then
undo and redo. -/
theorem claim_C5_witness :
    (getFieldD (redoMove (undoMove (setFieldStatus gameD 0 0 KStatus.active).2).2).2.fields 0 0).status
      = (getFieldD (setFieldStatus gameD 0 0 KStatus.active).2.fields 0 0).status ∧
    (redoMove (undoMove (setFieldStatus gameD 0 0 KStatus.active).2).2).2.currentMoveIndex
      = (setFieldStatus gameD 0 0 KStatus.active).2.currentMoveIndex :=
  claim_C5_undo_redo_restores gameD 0 0 KStatus.active { status := .clear }
    (by decide) (by decide) (by decide)
